import Mathlib

/-!
Verification development for the `guessing_utilities` crate (`src/lib.rs`).

The crate is a bounded-integer value type `Guess` over the closed range
[0, 100], with a validating constructor `Guess::new`, a string parser
`Guess::parse` (trim, then `i32` lexical parse, then delegation to `new`),
an accessor `value`, comparison and equality implementations, an error type
`GuessRangeError` with a `Display` message, and a random generator
`gen_random`.

Shallow embedding choices:
- `i32` values are modelled as `Int`; the constructor performs only
  comparisons, so no wrap-around arithmetic occurs.  The `i32` bounds
  appear explicitly where a claim quantifies over `i32`.
- Rust's `str::trim` is modelled as dropping Unicode `White_Space`
  characters from both ends of the character list.
- Rust's `i32::from_str` (radix 10) is modelled by `parseI32`: optional
  `+`/`-` sign, one or more ASCII digits, with the `Empty`, `InvalidDigit`,
  `PosOverflow` and `NegOverflow` error kinds.  Rust detects overflow with
  step-wise checked arithmetic; for radix-10 accumulation from 0 this is
  equivalent to the final value lying outside the `i32` range, which is how
  `parseI32` states it.
- `Box<dyn Error>` returned by `parse` holds either a `ParseIntError` or a
  `GuessRangeError`; it is modelled by the two-variant `ParseError`.
- `gen_random` draws from `gen_range(0..101)`; it is modelled as a function
  of the drawn value, and the `unwrap` panic is modelled as `Option.none`.
-/

deriving instance DecidableEq for Except

namespace GuessingUtils

/-- Smallest `i32` value, `-2^31`. -/
def i32Min : Int := -2147483648

/-- Largest `i32` value, `2^31 - 1`. -/
def i32Max : Int := 2147483647

/-- The `Guess` struct of `src/lib.rs`: a single private `i32` field `val`. -/
structure Guess where
  val : Int
deriving DecidableEq

/-- The `GuessRangeError` unit struct of the `err` module: no payload. -/
structure GuessRangeError where
deriving DecidableEq

/-- The string produced by the `Display` impl for `GuessRangeError`
(`write!(f, "The guess value was out of 0-100 range")`). -/
def GuessRangeError.display : String := "The guess value was out of 0-100 range"

/-- The constructor `Guess::new`: rejects `val < 0 || val > 100`, otherwise
stores the value. -/
def Guess.new (val : Int) : Except GuessRangeError Guess :=
  if val < 0 ∨ val > 100 then .error ⟨⟩ else .ok ⟨val⟩

/-- The accessor `Guess::value` (`&self.val`, dereferenced). -/
def Guess.value (g : Guess) : Int := g.val

/-- Unicode `White_Space` property, as used by Rust's `char::is_whitespace`
and hence by `str::trim`. -/
def isRustWhitespace (c : Char) : Bool :=
  c.toNat = 0x09 || c.toNat = 0x0A || c.toNat = 0x0B || c.toNat = 0x0C ||
  c.toNat = 0x0D || c.toNat = 0x20 || c.toNat = 0x85 || c.toNat = 0xA0 ||
  c.toNat = 0x1680 || (0x2000 ≤ c.toNat && c.toNat ≤ 0x200A) ||
  c.toNat = 0x2028 || c.toNat = 0x2029 || c.toNat = 0x202F ||
  c.toNat = 0x205F || c.toNat = 0x3000

/-- Rust's `str::trim`: drop leading and trailing whitespace. -/
def rustTrim (s : String) : List Char :=
  ((s.data.dropWhile isRustWhitespace).reverse.dropWhile isRustWhitespace).reverse

/-- Value of an ASCII decimal digit, as in Rust's `char::to_digit(10)`. -/
def digitVal (c : Char) : Option Nat :=
  if 48 ≤ c.toNat ∧ c.toNat ≤ 57 then some (c.toNat - 48) else none

/-- Error kinds of Rust's `ParseIntError` reachable from `i32::from_str`. -/
inductive IntErrorKind where
  | empty
  | invalidDigit
  | posOverflow
  | negOverflow
deriving DecidableEq

/-- Accumulate the decimal value of a digit sequence; `none` on any
non-digit character. -/
def parseDigits (cs : List Char) : Option Nat :=
  cs.foldl
    (fun acc c =>
      match acc, digitVal c with
      | some a, some d => some (a * 10 + d)
      | _, _ => none)
    (some 0)

/-- Rust's `i32::from_str` (`"text".parse::<i32>()`): empty input is
`Empty`; a bare sign or any non-digit is `InvalidDigit`; a value outside
`[-2^31, 2^31 - 1]` is `PosOverflow`/`NegOverflow`. -/
def parseI32 (cs : List Char) : Except IntErrorKind Int :=
  match cs with
  | [] => .error .empty
  | c :: rest =>
    if c = '+' then
      match rest, parseDigits rest with
      | [], _ => .error .invalidDigit
      | _ :: _, none => .error .invalidDigit
      | _ :: _, some n =>
        if 2147483647 < n then .error .posOverflow else .ok (n : Int)
    else if c = '-' then
      match rest, parseDigits rest with
      | [], _ => .error .invalidDigit
      | _ :: _, none => .error .invalidDigit
      | _ :: _, some n =>
        if 2147483648 < n then .error .negOverflow else .ok (-(n : Int))
    else
      match parseDigits (c :: rest) with
      | none => .error .invalidDigit
      | some n =>
        if 2147483647 < n then .error .posOverflow else .ok (n : Int)

/-- The `Box<dyn Error>` returned by `Guess::parse`: dynamically either the
`ParseIntError` from the lexical parse or the `GuessRangeError` from
`Guess::new`. -/
inductive ParseError where
  | lexical (k : IntErrorKind)
  | range (e : GuessRangeError)
deriving DecidableEq

/-- The parser `Guess::parse`: trim, lexically parse as `i32` (propagating
its error), then delegate to `Guess::new` (propagating its error). -/
def Guess.parse (s : String) : Except ParseError Guess :=
  match parseI32 (rustTrim s) with
  | .error k => .error (.lexical k)
  | .ok n =>
    match Guess.new n with
    | .ok g => .ok g
    | .error e => .error (.range e)

/-- Rust's `Result::unwrap`: a panic is modelled as `none`. -/
def unwrapOrPanic : Except ε α → Option α
  | .ok a => some a
  | .error _ => none

/-- The helper `gen_random`, as a function of the value drawn by
`rand::thread_rng().gen_range(0..101)` (an integer in `[0, 100]`). -/
def gen_random (draw : Int) : Option Guess :=
  unwrapOrPanic (Guess.new draw)

/-- Rust's `i32` `Ord::cmp` scheme: `Less` if smaller, `Equal` if equal,
otherwise `Greater`. -/
def intCmp (a b : Int) : Ordering :=
  if a < b then .lt else if a = b then .eq else .gt

/-- The `Ord for Guess` impl: `self.value().cmp(other.value())`. -/
def Guess.cmp (a b : Guess) : Ordering :=
  intCmp a.value b.value

/-- The `PartialOrd for Guess` impl, `partial_cmp`: `Some(self.cmp(other))`. -/
def Guess.pcmp (a b : Guess) : Option Ordering :=
  some (a.cmp b)

/-- The `PartialEq for Guess` impl: `self.value() == other.value()`. -/
def Guess.eq (a b : Guess) : Bool :=
  a.value == b.value

/-- Outcome equivalence for two runs of `Guess::new`: both succeed with
equal stored values, or both fail (the error type has a single value). -/
def sameNewOutcome (r₁ r₂ : Except GuessRangeError Guess) : Prop :=
  match r₁, r₂ with
  | .ok g₁, .ok g₂ => g₁.value = g₂.value
  | .error _, .error _ => True
  | _, _ => False

/-- Outcome equivalence for two runs of `Guess::parse`: both succeed with
equal stored values, or both fail with the same error kind. -/
def sameParseOutcome (r₁ r₂ : Except ParseError Guess) : Prop :=
  match r₁, r₂ with
  | .ok g₁, .ok g₂ => g₁.value = g₂.value
  | .error e₁, .error e₂ => e₁ = e₂
  | _, _ => False

/-! ### Helper lemmas -/

/-- A successful `Guess::new` stores exactly the argument. -/
lemma new_ok_elim {v : Int} {g : Guess} (h : Guess.new v = .ok g) :
    g = ⟨v⟩ ∧ 0 ≤ v ∧ v ≤ 100 := by
  unfold Guess.new at h
  by_cases hc : v < 0 ∨ v > 100
  · rw [if_pos hc] at h
    cases h
  · rw [if_neg hc] at h
    cases h
    push_neg at hc
    exact ⟨rfl, hc.1, by omega⟩

/-- An out-of-range argument makes `Guess::new` fail. -/
lemma new_error_of_out_of_range {v : Int} (h : v < 0 ∨ 100 < v) :
    Guess.new v = .error ⟨⟩ := by
  unfold Guess.new
  rw [if_pos (by omega)]

/-- An in-range argument makes `Guess::new` succeed with that value. -/
lemma new_ok_of_in_range {v : Int} (h0 : 0 ≤ v) (h1 : v ≤ 100) :
    Guess.new v = .ok ⟨v⟩ := by
  unfold Guess.new
  rw [if_neg (by omega)]

/-- A successful `Guess::parse` went through a successful `Guess::new`. -/
lemma parse_ok_elim {s : String} {g : Guess} (h : Guess.parse s = .ok g) :
    ∃ n, parseI32 (rustTrim s) = .ok n ∧ Guess.new n = .ok g := by
  unfold Guess.parse at h
  split at h
  next k hk => cases h
  next n hn =>
    split at h
    next g₂ hg =>
      injection h with h₂
      subst h₂
      exact ⟨n, hn, hg⟩
    next e hg => cases h

/-- A successful `gen_random` went through a successful `Guess::new`. -/
lemma gen_random_elim {r : Int} {g : Guess} (h : gen_random r = some g) :
    Guess.new r = .ok g := by
  unfold gen_random unwrapOrPanic at h
  split at h
  next a ha =>
    injection h with h₂
    subst h₂
    exact ha
  next e he => cases h

/-- The comparison scheme answers `eq` exactly on equal inputs. -/
lemma intCmp_eq_iff {x y : Int} : intCmp x y = .eq ↔ x = y := by
  unfold intCmp
  split_ifs with h₁ h₂
  · exact iff_of_false (by decide) (by omega)
  · exact iff_of_true rfl h₂
  · exact iff_of_false (by decide) h₂

/-- The comparison scheme answers `lt` exactly when the first input is
smaller. -/
lemma intCmp_lt_iff {x y : Int} : intCmp x y = .lt ↔ x < y := by
  unfold intCmp
  split_ifs with h₁ h₂
  · exact iff_of_true rfl h₁
  · exact iff_of_false (by decide) h₁
  · exact iff_of_false (by decide) h₁

/-- The comparison scheme answers `gt` exactly when the second input is
smaller. -/
lemma intCmp_gt_iff {x y : Int} : intCmp x y = .gt ↔ y < x := by
  unfold intCmp
  split_ifs with h₁ h₂
  · exact iff_of_false (by decide) (by omega)
  · exact iff_of_false (by decide) (by omega)
  · exact iff_of_true rfl (by omega)

/-! ### Claim theorems -/

/-- C1: for every `i32` integer `v`, `Guess::new(v)` succeeds with a `Guess`
whose `value()` equals `v` if and only if `0 ≤ v ≤ 100`, and fails with a
`GuessRangeError` whenever `v < 0` or `v > 100`. -/
theorem new_range_spec (v : Int) (_hlo : i32Min ≤ v) (_hhi : v ≤ i32Max) :
    (0 ≤ v ∧ v ≤ 100 → Guess.new v = .ok ⟨v⟩ ∧ Guess.value ⟨v⟩ = v) ∧
    (v < 0 ∨ 100 < v → Guess.new v = .error ⟨⟩) ∧
    ((∃ g, Guess.new v = .ok g ∧ g.value = v) ↔ 0 ≤ v ∧ v ≤ 100) := by
  refine ⟨fun h => ⟨new_ok_of_in_range h.1 h.2, rfl⟩, new_error_of_out_of_range, ?_, ?_⟩
  · rintro ⟨g, hg, hv⟩
    exact (new_ok_elim hg).2
  · rintro ⟨h0, h1⟩
    exact ⟨⟨v⟩, new_ok_of_in_range h0 h1, rfl⟩

/-- Witness for `new_range_spec` at `v = 100` (spec scenario 5). -/
theorem new_range_spec_witness :
    (i32Min ≤ (100 : Int) ∧ (100 : Int) ≤ i32Max ∧ 0 ≤ (100 : Int) ∧ (100 : Int) ≤ 100) ∧
    Guess.new 100 = .ok ⟨100⟩ ∧ Guess.value ⟨100⟩ = 100 :=
  ⟨⟨by decide, by decide, by decide, by decide⟩,
    (new_range_spec 100 (by decide) (by decide)).1 ⟨by decide, by decide⟩⟩

/-- C2: for every string whose trimmed form lexically parses as the `i32`
value `n`, `Guess::parse` succeeds exactly when `0 ≤ n ≤ 100`, in which case
the returned `Guess` stores `n`; out of range, the `GuessRangeError` from
the delegated `Guess::new` call is the parse failure. -/
theorem parse_valid_literal (s : String) (n : Int)
    (h : parseI32 (rustTrim s) = .ok n) :
    (0 ≤ n ∧ n ≤ 100 → Guess.parse s = .ok ⟨n⟩) ∧
    (n < 0 ∨ 100 < n → Guess.parse s = .error (.range ⟨⟩)) ∧
    ((∃ g, Guess.parse s = .ok g ∧ g.value = n) ↔ 0 ≤ n ∧ n ≤ 100) := by
  have hparse : Guess.parse s =
      match Guess.new n with
      | .ok g => .ok g
      | .error e => .error (.range e) := by
    unfold Guess.parse
    rw [h]
  refine ⟨?_, ?_, ?_, ?_⟩
  · rintro ⟨h0, h1⟩
    rw [hparse, new_ok_of_in_range h0 h1]
  · intro hout
    rw [hparse, new_error_of_out_of_range hout]
  · rintro ⟨g, hg, hv⟩
    obtain ⟨m, hm, hnew⟩ := parse_ok_elim hg
    rw [h] at hm
    injection hm with hm₂
    subst hm₂
    exact (new_ok_elim hnew).2
  · rintro ⟨h0, h1⟩
    refine ⟨⟨n⟩, ?_, rfl⟩
    rw [hparse, new_ok_of_in_range h0 h1]

/-- Witness for `parse_valid_literal` at `s = "16"` (spec scenario 1). -/
theorem parse_valid_literal_witness :
    parseI32 (rustTrim "16") = .ok 16 ∧ (0 ≤ (16 : Int) ∧ (16 : Int) ≤ 100) ∧
    Guess.parse "16" = .ok ⟨16⟩ :=
  ⟨by decide, ⟨by decide, by decide⟩,
    (parse_valid_literal "16" 16 (by decide)).1 ⟨by decide, by decide⟩⟩

/-- C3: for every string whose trimmed form fails the `i32` lexical parse
(non-numeric, empty, or overflowing `i32`), `Guess::parse` fails with the
lexical error kind, which is distinguishable from the range-error kind. -/
theorem parse_lexical_spec (s : String) (k : IntErrorKind)
    (h : parseI32 (rustTrim s) = .error k) :
    Guess.parse s = .error (.lexical k) ∧
    ∀ e : GuessRangeError, ParseError.lexical k ≠ ParseError.range e := by
  refine ⟨?_, fun e hc => by cases hc⟩
  unfold Guess.parse
  rw [h]

/-- Witness for `parse_lexical_spec` at `s = "val"` (spec scenario 2). -/
theorem parse_lexical_spec_witness :
    parseI32 (rustTrim "val") = .error .invalidDigit ∧
    Guess.parse "val" = .error (.lexical .invalidDigit) :=
  ⟨by decide, (parse_lexical_spec "val" .invalidDigit (by decide)).1⟩

/-- C4: every `Guess` produced by any operation of the system
(`Guess::new`, `Guess::parse`, or `gen_random`) holds a value in `[0, 100]`;
the type is immutable, so no operation can move a value outside the range. -/
theorem guess_invariant (g : Guess)
    (h : (∃ v, Guess.new v = .ok g) ∨ (∃ s, Guess.parse s = .ok g) ∨
      (∃ r, gen_random r = some g)) :
    0 ≤ g.value ∧ g.value ≤ 100 := by
  rcases h with ⟨v, hv⟩ | ⟨s, hs⟩ | ⟨r, hr⟩
  · obtain ⟨hg, h0, h1⟩ := new_ok_elim hv
    subst hg
    exact ⟨h0, h1⟩
  · obtain ⟨n, _, hnew⟩ := parse_ok_elim hs
    obtain ⟨hg, h0, h1⟩ := new_ok_elim hnew
    subst hg
    exact ⟨h0, h1⟩
  · obtain ⟨hg, h0, h1⟩ := new_ok_elim (gen_random_elim hr)
    subst hg
    exact ⟨h0, h1⟩

/-- Witness for `guess_invariant` with the guess constructed by
`Guess::new 50`. -/
theorem guess_invariant_witness :
    Guess.new 50 = .ok ⟨50⟩ ∧ 0 ≤ Guess.value ⟨50⟩ ∧ Guess.value ⟨50⟩ ≤ 100 :=
  ⟨by decide, guess_invariant ⟨50⟩ (.inl ⟨50, by decide⟩)⟩

/-- C5: for every value the randomness source draws from `[0, 100]`
(`gen_range(0..101)`), the internal `Guess::new` call succeeds, so the
`unwrap` never panics, `gen_random` returns a `Guess` holding the drawn
value, and no `GuessRangeError` reaches the caller. -/
theorem gen_random_safe (draw : Int) (h0 : 0 ≤ draw) (h1 : draw ≤ 100) :
    gen_random draw = some ⟨draw⟩ ∧
    ∀ e : GuessRangeError, Guess.new draw ≠ .error e := by
  have hok := new_ok_of_in_range h0 h1
  constructor
  · unfold gen_random
    rw [hok]
    rfl
  · intro e hc
    rw [hok] at hc
    cases hc

/-- Witness for `gen_random_safe` at `draw = 50`. -/
theorem gen_random_safe_witness :
    (0 ≤ (50 : Int) ∧ (50 : Int) ≤ 100) ∧ gen_random 50 = some ⟨50⟩ :=
  ⟨⟨by decide, by decide⟩, (gen_random_safe 50 (by decide) (by decide)).1⟩

/-- C6: `cmp` is the integer comparison of the stored values, always yields
one of `lt`/`eq`/`gt`, is never unordered (`partial_cmp` is always `some`),
is `eq` exactly on equal guesses (both as `PartialEq` and propositionally),
and is antisymmetric and transitive. -/
theorem cmp_total_order (a b c : Guess) :
    Guess.cmp a b = intCmp (Guess.value a) (Guess.value b) ∧
    (Guess.cmp a b = .lt ∨ Guess.cmp a b = .eq ∨ Guess.cmp a b = .gt) ∧
    Guess.pcmp a b = some (Guess.cmp a b) ∧
    (Guess.cmp a b = .eq ↔ Guess.eq a b = true) ∧
    (Guess.cmp a b = .eq ↔ a = b) ∧
    (Guess.cmp a b = .lt ↔ Guess.cmp b a = .gt) ∧
    (Guess.cmp a b = .lt → Guess.cmp b c = .lt → Guess.cmp a c = .lt) := by
  obtain ⟨x⟩ := a
  obtain ⟨y⟩ := b
  obtain ⟨z⟩ := c
  refine ⟨rfl, ?_, rfl, ?_, ?_, ?_, ?_⟩
  · show intCmp x y = .lt ∨ intCmp x y = .eq ∨ intCmp x y = .gt
    unfold intCmp
    split_ifs <;> simp
  · show intCmp x y = .eq ↔ (x == y) = true
    rw [intCmp_eq_iff, beq_iff_eq]
  · show intCmp x y = .eq ↔ Guess.mk x = Guess.mk y
    rw [intCmp_eq_iff]
    simp [Guess.mk.injEq]
  · show intCmp x y = .lt ↔ intCmp y x = .gt
    rw [intCmp_lt_iff, intCmp_gt_iff]
  · intro h₁ h₂
    replace h₁ : x < y := intCmp_lt_iff.mp h₁
    replace h₂ : y < z := intCmp_lt_iff.mp h₂
    show intCmp x z = .lt
    exact intCmp_lt_iff.mpr (by omega)

/-- Witness for `cmp_total_order`: transitivity applied at the guesses 13,
50, 60. -/
theorem cmp_total_order_witness :
    Guess.cmp ⟨13⟩ ⟨50⟩ = .lt ∧ Guess.cmp ⟨50⟩ ⟨60⟩ = .lt ∧
    Guess.cmp ⟨13⟩ ⟨60⟩ = .lt :=
  ⟨by decide, by decide,
    (cmp_total_order ⟨13⟩ ⟨50⟩ ⟨60⟩).2.2.2.2.2.2 (by decide) (by decide)⟩

/-- C7: the `PartialEq` equality holds exactly when the stored values are
equal, and is reflexive, symmetric and transitive. -/
theorem eq_equivalence (a b c : Guess) :
    (Guess.eq a b = true ↔ Guess.value a = Guess.value b) ∧
    Guess.eq a a = true ∧
    (Guess.eq a b = true → Guess.eq b a = true) ∧
    (Guess.eq a b = true → Guess.eq b c = true → Guess.eq a c = true) := by
  obtain ⟨x⟩ := a
  obtain ⟨y⟩ := b
  obtain ⟨z⟩ := c
  refine ⟨?_, ?_, ?_, ?_⟩
  · show (x == y) = true ↔ x = y
    rw [beq_iff_eq]
  · show (x == x) = true
    rw [beq_iff_eq]
  · intro h
    replace h : x = y := by rwa [show Guess.eq ⟨x⟩ ⟨y⟩ = (x == y) from rfl, beq_iff_eq] at h
    show (y == x) = true
    rw [beq_iff_eq]
    omega
  · intro h₁ h₂
    replace h₁ : x = y := by rwa [show Guess.eq ⟨x⟩ ⟨y⟩ = (x == y) from rfl, beq_iff_eq] at h₁
    replace h₂ : y = z := by rwa [show Guess.eq ⟨y⟩ ⟨z⟩ = (y == z) from rfl, beq_iff_eq] at h₂
    show (x == z) = true
    rw [beq_iff_eq]
    omega

/-- Witness for `eq_equivalence`: symmetry applied at two guesses holding
13 (spec example `construct(13) == construct(13)`). -/
theorem eq_equivalence_witness : Guess.eq ⟨13⟩ ⟨13⟩ = true :=
  (eq_equivalence ⟨13⟩ ⟨13⟩ ⟨13⟩).2.2.1 (by decide)

/-- C8: the `Display` impl for `GuessRangeError` renders exactly
"The guess value was out of 0-100 range", and the error carries no payload
beyond its kind: all its values are equal. -/
theorem range_error_display :
    GuessRangeError.display = "The guess value was out of 0-100 range" ∧
    ∀ e₁ e₂ : GuessRangeError, e₁ = e₂ :=
  ⟨rfl, fun e₁ e₂ => by cases e₁; cases e₂; rfl⟩

/-- C9: for every `n` in `[0, 100]`, parsing `"+"` followed by the decimal
digits of `n` succeeds with value `n`, because the `i32` lexical parse
accepts a leading plus sign. -/
theorem parse_plus_prefix :
    ∀ n : Nat, n ≤ 100 → Guess.parse ("+" ++ toString n) = .ok ⟨(n : Int)⟩ := by
  decide

/-- Witness for `parse_plus_prefix` at `n = 16`: `parse("+16")` succeeds
with value 16. -/
theorem parse_plus_prefix_witness :
    16 ≤ 100 ∧ Guess.parse ("+" ++ toString 16) = .ok ⟨(16 : Int)⟩ :=
  ⟨by decide, parse_plus_prefix 16 (by decide)⟩

/-- C10: `Guess::new` and `Guess::parse` are deterministic: two invocations
on the same input yield the same outcome — both succeed with equal stored
values, or both fail with the same error kind. -/
theorem constructors_deterministic (v : Int) (s : String) :
    sameNewOutcome (Guess.new v) (Guess.new v) ∧
    sameParseOutcome (Guess.parse s) (Guess.parse s) := by
  constructor
  · cases Guess.new v <;> simp [sameNewOutcome]
  · cases Guess.parse s <;> simp [sameParseOutcome]

end GuessingUtils
